import Mathlib

/-!
Verification of the eventhive event-management application against its
specification.  The client-side session manager (token storage, the axios
request and response interceptors of
src/frontend/event-tracker-ui/src/utils/api.js and its duplicate
src/unnamed/part_005, and initAuth of
src/frontend/event-tracker-ui/src/contexts/AuthContext.jsx) and the
events-page filter of src/frontend/event-tracker-ui/src/pages/EventsPage.jsx
are embedded from the JavaScript source.  The backend events application
(Django, backend/events) is not part of the source tree; its operations are
modelled from the specification where a claim needs them.
-/

namespace EventHive

/-! ## Client-side token storage (utils/api.js lines 16-39)

localStorage holds two keys, access_token and refresh_token.  getItem
returns null for a missing key, modelled as none.  JavaScript truthiness
(used by the guards if token, if refreshToken and by isAuthenticated)
treats both null and the empty string as false. -/

structure Storage where
  access : Option String
  refresh : Option String
deriving DecidableEq

/-- JavaScript truthiness of a stored string value: null (none) and the
empty string are falsy; truthyStr returns the value when it is truthy. -/
def truthyStr : Option String → Option String
  | none => none
  | some s => if s = "" then none else some s

/-- setTokens of utils/api.js: writes both localStorage keys. -/
def setTokens (accessToken refreshToken : String) : Storage :=
  ⟨some accessToken, some refreshToken⟩

/-- clearTokens of utils/api.js: removes both localStorage keys. -/
def clearTokens : Storage := ⟨none, none⟩

/-- isAuthenticated of utils/api.js: double negation of getAccessToken. -/
def isAuthenticated (st : Storage) : Bool := (truthyStr st.access).isSome

/-- localStorage.setItem coerces the JavaScript value undefined to the
string "undefined"; the same coercion happens in the template literal
building the Authorization header. -/
def storeString : Option String → String
  | some s => s
  | none => "undefined"

/-! ## The axios request/response interceptors (utils/api.js lines 41-95) -/

/-- An axios request config: the one-shot retry marker written by the
response interceptor, and the Authorization header if set. -/
structure Request where
  retryFlag : Bool
  auth : Option String
deriving DecidableEq

/-- Bearer-token Authorization header value. -/
def bearer (t : String) : String := "Bearer " ++ t

/-- The request interceptor (utils/api.js lines 42-52): if a truthy access
token is stored, the Authorization header is overwritten with it, else the
config header is left as it is. -/
def requestAuth (st : Storage) (req : Request) : Option String :=
  match truthyStr st.access with
  | some t => some (bearer t)
  | none => req.auth

/-- Result of the awaited call to the refresh endpoint, as seen by the
interceptor code: the await either threw (promise rejected) or returned a
parsed JSON body whose access field may be absent. -/
inductive RefreshCallResult where
  | failed
  | returned (access : Option String)
deriving DecidableEq

/-- HTTP-level outcome of the backend refresh endpoint. -/
inductive RefreshHttp where
  | ok (access : String)
  | httpError
  | networkFailure
deriving DecidableEq

/-- Transport semantics of fetch, used by utils/api.js line 67: fetch only
rejects on network failure; an HTTP error response resolves normally and
its JSON error body carries no access field. -/
def fetchSemantics : RefreshHttp → RefreshCallResult
  | .ok a => .returned (some a)
  | .httpError => .returned none
  | .networkFailure => .failed

/-- Transport semantics of axios.post, used by src/unnamed/part_005
line 85: axios rejects on any non-2xx status and on network failure. -/
def axiosSemantics : RefreshHttp → RefreshCallResult
  | .ok a => .returned (some a)
  | .httpError => .failed
  | .networkFailure => .failed

/-- The backend as seen by one dispatched request: respond gives the HTTP
status returned for the event request given its Authorization header, and
refreshCall gives the outcome of the awaited refresh call for a given
refresh token. -/
structure Backend where
  respond : Option String → Nat
  refreshCall : String → RefreshCallResult

/-- Final outcome of a dispatched request: the resolved response status,
the rejected error status, or rejection with the thrown refresh error. -/
inductive HttpOutcome where
  | success (status : Nat)
  | failure (status : Nat)
  | refreshThrown
deriving DecidableEq

/-- Everything observable about one dispatch through the interceptors:
the outcome, the final token storage, the Authorization headers of the
sends of the event request in order, the number of refresh-endpoint
calls, the arguments of the setTokens calls in order, and whether the
browser was redirected to /login. -/
structure DispatchResult where
  outcome : HttpOutcome
  storage : Storage
  sentAuths : List (Option String)
  refreshCalls : Nat
  setTokensCalls : List (String × String)
  redirectedToLogin : Bool
deriving DecidableEq

/-- One dispatch of a request through the axios instance of utils/api.js:
the request interceptor attaches the stored access token, the backend
responds, and on a non-2xx status the response interceptor runs (lines
55-95): on a 401 with the retry marker unset it sets the marker, and if a
truthy refresh token is stored it awaits the refresh call; if that call
returns, setTokens stores the access field of the body (the string
"undefined" when the field is absent) together with the refresh token read
before, and the original request is re-dispatched with the new header; if
it threw, tokens are cleared and the browser is sent to /login; without a
refresh token, tokens are cleared, the browser is sent to /login and the
original error is rethrown.  Fuel bounds the re-dispatch depth; fuel 2 is
proved sufficient below. -/
def dispatchFuel : Nat → Backend → Storage → Request → Option DispatchResult
  | 0, _, _, _ => none
  | fuel + 1, B, st, req =>
    let auth := requestAuth st req
    let status := B.respond auth
    if 200 ≤ status ∧ status < 300 then
      some ⟨.success status, st, [auth], 0, [], false⟩
    else if status = 401 ∧ req.retryFlag = false then
      match truthyStr st.refresh with
      | some refreshToken =>
        match B.refreshCall refreshToken with
        | .returned acc =>
          let newAccess := storeString acc
          let st2 := setTokens newAccess refreshToken
          let req2 : Request := ⟨true, some (bearer newAccess)⟩
          match dispatchFuel fuel B st2 req2 with
          | some r =>
            some ⟨r.outcome, r.storage, auth :: r.sentAuths, r.refreshCalls + 1,
              (newAccess, refreshToken) :: r.setTokensCalls, r.redirectedToLogin⟩
          | none => none
        | .failed =>
          some ⟨.refreshThrown, clearTokens, [auth], 1, [], true⟩
      | none =>
        some ⟨.failure status, clearTokens, [auth], 0, [], true⟩
    else
      some ⟨.failure status, st, [auth], 0, [], false⟩

/-- A request enters the axios instance with the retry marker unset; the
marker guard makes one level of re-dispatch the maximum, so fuel 2 is
enough (proved in dispatchFuel_retryFlag_true and dispatch_isSome). -/
def dispatch (B : Backend) (st : Storage) (req : Request) : Option DispatchResult :=
  dispatchFuel 2 B st req

/-- A request whose retry marker is already set is never re-dispatched and
never triggers a refresh or a storage write: the interceptor forwards the
response or rethrows the error unchanged. -/
theorem dispatchFuel_retryFlag_true (fuel : Nat) (B : Backend) (st : Storage)
    (req : Request) (h : req.retryFlag = true) :
    ∃ o, dispatchFuel (fuel + 1) B st req =
      some ⟨o, st, [requestAuth st req], 0, [], false⟩ := by
  unfold dispatchFuel
  by_cases h2 : 200 ≤ B.respond (requestAuth st req) ∧ B.respond (requestAuth st req) < 300
  · exact ⟨.success (B.respond (requestAuth st req)), by simp [h2]⟩
  · refine ⟨.failure (B.respond (requestAuth st req)), ?_⟩
    simp only [h2, if_false, h]
    simp

/-- Dispatch with fuel 2 always yields a result. -/
theorem dispatch_isSome (B : Backend) (st : Storage) (req : Request) :
    (dispatch B st req).isSome = true := by
  unfold dispatch dispatchFuel
  by_cases h2 : 200 ≤ B.respond (requestAuth st req) ∧ B.respond (requestAuth st req) < 300
  · simp [h2]
  · by_cases h4 : B.respond (requestAuth st req) = 401 ∧ req.retryFlag = false
    · simp only [h2, if_false, h4, if_true]
      cases hrt : truthyStr st.refresh with
      | none => simp
      | some rt =>
        cases hrc : B.refreshCall rt with
        | failed => simp [hrc]
        | returned acc =>
          obtain ⟨o, ho⟩ := dispatchFuel_retryFlag_true 0 B
            (setTokens (storeString acc) rt) ⟨true, some (bearer (storeString acc))⟩ rfl
          rw [show (0 + 1 : Nat) = 1 from rfl] at ho
          simp [hrc, ho]
    · simp [h2, h4]

/-- Truthiness only ever returns the stored value itself. -/
theorem truthyStr_eq_some {x : Option String} {s : String}
    (h : truthyStr x = some s) : x = some s := by
  cases x with
  | none => simp [truthyStr] at h
  | some t =>
    by_cases ht : t = ""
    · simp [truthyStr, ht] at h
    · simp only [truthyStr, ht, if_false] at h
      exact h

/-- The retried request always reaches the server carrying the header
written from the refreshed access token: the request interceptor either
re-derives the same header from the freshly stored token, or (for an empty
token value, which is falsy) leaves the header the response interceptor
wrote on the config. -/
theorem requestAuth_after_setTokens (a r : String) :
    requestAuth (setTokens a r) ⟨true, some (bearer a)⟩ = some (bearer a) := by
  unfold requestAuth setTokens truthyStr
  by_cases h : a = "" <;> simp [h]

/-- The full refreshed-and-retried path of the response interceptor: when
a request with the retry marker unset gets a 401, a truthy refresh token
is stored, and the awaited refresh call returns a body, then setTokens is
called once with the body access field and the same refresh token, and the
original request is re-dispatched exactly once with the refreshed header. -/
theorem dispatch_refresh_path (B : Backend) (st : Storage) (req : Request)
    (rt : String) (acc : Option String)
    (hflag : req.retryFlag = false)
    (h401 : B.respond (requestAuth st req) = 401)
    (hrt : truthyStr st.refresh = some rt)
    (hrc : B.refreshCall rt = .returned acc) :
    ∃ o, dispatch B st req = some ⟨o, setTokens (storeString acc) rt,
      [requestAuth st req, some (bearer (storeString acc))], 1,
      [(storeString acc, rt)], false⟩ := by
  unfold dispatch dispatchFuel
  have h2 : ¬ (200 ≤ B.respond (requestAuth st req) ∧
      B.respond (requestAuth st req) < 300) := by
    rw [h401]; omega
  obtain ⟨o, ho⟩ := dispatchFuel_retryFlag_true 0 B
    (setTokens (storeString acc) rt) ⟨true, some (bearer (storeString acc))⟩ rfl
  rw [show (0 + 1 : Nat) = 1 from rfl, requestAuth_after_setTokens] at ho
  refine ⟨o, ?_⟩
  simp only [h2, if_false, h401, hflag, and_self, if_true, hrt, hrc, ho]
  norm_num

/-- The refresh-threw path of the response interceptor: when a request
with the retry marker unset gets a 401, a truthy refresh token is stored,
and the awaited refresh call throws, then both tokens are cleared, the
browser is redirected to /login, and the refresh error is rethrown without
any retry of the original request. -/
theorem dispatch_refresh_failed (B : Backend) (st : Storage) (req : Request)
    (rt : String)
    (hflag : req.retryFlag = false)
    (h401 : B.respond (requestAuth st req) = 401)
    (hrt : truthyStr st.refresh = some rt)
    (hrc : B.refreshCall rt = .failed) :
    dispatch B st req =
      some ⟨.refreshThrown, clearTokens, [requestAuth st req], 1, [], true⟩ := by
  unfold dispatch dispatchFuel
  have h2 : ¬ (200 ≤ B.respond (requestAuth st req) ∧
      B.respond (requestAuth st req) < 300) := by
    rw [h401]; omega
  simp only [h2, if_false, h401, hflag, and_self, if_true, hrt, hrc]
  norm_num

/-- Claim C2: for every request entering the axios instance (retry marker
unset) that fails with 401 while a truthy refresh token is stored, the
interceptor performs exactly one refresh call; the event request reaches
the server at most twice in total, whatever the backend does; and whenever
the refresh call returns a new access token, the original request is
retried exactly once, so the server sees it exactly twice, the second time
with the refreshed Authorization header. -/
theorem C2_single_refresh_single_retry (B : Backend) (st : Storage)
    (req : Request) (rt : String)
    (hflag : req.retryFlag = false)
    (h401 : B.respond (requestAuth st req) = 401)
    (hrt : truthyStr st.refresh = some rt) :
    ∃ r, dispatch B st req = some r ∧ r.refreshCalls = 1 ∧
      r.sentAuths.length ≤ 2 ∧
      (∀ a, B.refreshCall rt = .returned (some a) →
        r.sentAuths = [requestAuth st req, some (bearer a)]) := by
  cases hrc : B.refreshCall rt with
  | returned acc =>
    obtain ⟨o, ho⟩ := dispatch_refresh_path B st req rt acc hflag h401 hrt hrc
    refine ⟨_, ho, rfl, by simp, ?_⟩
    intro a ha
    injection ha with h
    subst h
    rfl
  | failed =>
    refine ⟨_, dispatch_refresh_failed B st req rt hflag h401 hrt hrc, rfl, by simp, ?_⟩
    intro a ha
    simp at ha

/-- Concrete run for claim C2: stored pair (oldTok, refTok), a backend
that answers 401 to everything and reissues newTok on refresh. -/
theorem C2_witness :
    ∃ r, dispatch ⟨fun _ => 401, fun _ => RefreshCallResult.returned (some "newTok")⟩
        ⟨some "oldTok", some "refTok"⟩ ⟨false, none⟩ = some r ∧
      r.refreshCalls = 1 ∧ r.sentAuths.length ≤ 2 ∧
      (∀ a, (⟨fun _ => 401, fun _ => RefreshCallResult.returned (some "newTok")⟩ :
          Backend).refreshCall "refTok" = RefreshCallResult.returned (some a) →
        r.sentAuths = [requestAuth ⟨some "oldTok", some "refTok"⟩ ⟨false, none⟩,
          some (bearer a)]) :=
  C2_single_refresh_single_retry _ _ _ "refTok" rfl rfl rfl

/-- Claim C3 (code bug, evaluated at the failing input): stored pair
(expiredAccess, invalidRefresh), backend answering 401 to every event
request and rejecting the refresh token with an HTTP error response.
First conjunct, the live utils/api.js whose refresh transport is fetch:
fetch resolves on an HTTP error, so the catch block never runs; setTokens
is called with the coerced string undefined and the old refresh token,
the request is retried with header Bearer undefined, and after its 401
the error propagates with both storage slots still populated and no
redirect to /login — the claimed discard-and-terminate does not happen.
Second conjunct, the part_005 variant whose transport is axios.post:
axios rejects on the HTTP error, the catch runs, both tokens are cleared
and the browser is redirected to /login, exactly as the claim states. -/
theorem C3_refresh_rejection_keeps_tokens :
    dispatch ⟨fun _ => 401, fun _ => fetchSemantics RefreshHttp.httpError⟩
        ⟨some "expiredAccess", some "invalidRefresh"⟩ ⟨false, none⟩ =
      some ⟨HttpOutcome.failure 401, ⟨some "undefined", some "invalidRefresh"⟩,
        [some "Bearer expiredAccess", some "Bearer undefined"], 1,
        [("undefined", "invalidRefresh")], false⟩ ∧
    dispatch ⟨fun _ => 401, fun _ => axiosSemantics RefreshHttp.httpError⟩
        ⟨some "expiredAccess", some "invalidRefresh"⟩ ⟨false, none⟩ =
      some ⟨HttpOutcome.refreshThrown, clearTokens,
        [some "Bearer expiredAccess"], 1, [], true⟩ := by
  exact ⟨rfl, rfl⟩

/-- Claim C7: on every successful refresh (the refresh call returns a body
carrying a new access token), the new token replaces the stored access
token, and the single suspended request is retried exactly once, carrying
exactly the new token in its Authorization header; the header list shows
the retry is sent only after setTokens has stored the refreshed token. -/
theorem C7_retry_carries_new_token (B : Backend) (st : Storage)
    (req : Request) (rt a : String)
    (hflag : req.retryFlag = false)
    (h401 : B.respond (requestAuth st req) = 401)
    (hrt : truthyStr st.refresh = some rt)
    (hok : B.refreshCall rt = .returned (some a)) :
    ∃ r, dispatch B st req = some r ∧
      r.storage.access = some a ∧
      r.sentAuths = [requestAuth st req, some (bearer a)] := by
  obtain ⟨o, ho⟩ := dispatch_refresh_path B st req rt (some a) hflag h401 hrt hok
  exact ⟨_, ho, rfl, rfl⟩

/-- Concrete run for claim C7: the refreshed token freshTok replaces
staleTok in storage and the retry carries header Bearer freshTok. -/
theorem C7_witness :
    ∃ r, dispatch ⟨fun _ => 401, fun _ => RefreshCallResult.returned (some "freshTok")⟩
        ⟨some "staleTok", some "keepRef"⟩ ⟨false, none⟩ = some r ∧
      r.storage.access = some "freshTok" ∧
      r.sentAuths = [requestAuth ⟨some "staleTok", some "keepRef"⟩ ⟨false, none⟩,
        some (bearer "freshTok")] :=
  C7_retry_carries_new_token _ _ _ "keepRef" "freshTok" rfl rfl rfl rfl

/-- Claim C9: across every refresh cycle that reaches setTokens (the
awaited refresh call returned a body, whatever it contained), setTokens is
called exactly once, with the access value taken from the body and the
very refresh token that was read from storage before the refresh; the
stored refresh token is therefore unchanged by the whole dispatch — a
refresh never rotates the refresh token. -/
theorem C9_refresh_token_not_rotated (B : Backend) (st : Storage)
    (req : Request) (rt : String) (acc : Option String)
    (hflag : req.retryFlag = false)
    (h401 : B.respond (requestAuth st req) = 401)
    (hrt : truthyStr st.refresh = some rt)
    (hrc : B.refreshCall rt = .returned acc) :
    ∃ r, dispatch B st req = some r ∧
      r.setTokensCalls = [(storeString acc, rt)] ∧
      r.storage.refresh = st.refresh := by
  obtain ⟨o, ho⟩ := dispatch_refresh_path B st req rt acc hflag h401 hrt hrc
  refine ⟨_, ho, rfl, ?_⟩
  rw [truthyStr_eq_some hrt]
  rfl

/-- Concrete run for claim C9: the refresh slot still holds stableRef
after the refresh cycle, and setTokens was called with that same token. -/
theorem C9_witness :
    ∃ r, dispatch ⟨fun _ => 401, fun _ => RefreshCallResult.returned (some "rotated")⟩
        ⟨some "acc0", some "stableRef"⟩ ⟨false, none⟩ = some r ∧
      r.setTokensCalls = [(storeString (some "rotated"), "stableRef")] ∧
      r.storage.refresh = (⟨some "acc0", some "stableRef"⟩ : Storage).refresh :=
  C9_refresh_token_not_rotated _ _ _ "stableRef" (some "rotated") rfl rfl rfl rfl

/-! ## Session initialisation (contexts/AuthContext.jsx lines 24-43,
duplicate src/unnamed/part_008 lines 35-51)

initAuth runs once at application start: if isAuthenticated() — a truthy
stored access token — it awaits the profile call; on success the resolved
profile becomes the user, on failure both tokens are cleared.  The user
stays null in every other case. -/

/-- Outcome of initAuth: the user state after the effect (none is the
Unauthenticated session, some is Authenticated), the token storage after
the effect, and whether a profile resolution was attempted. -/
structure InitAuthResult (α : Type) where
  user : Option α
  storage : Storage
  attempted : Bool
deriving DecidableEq

/-- initAuth of AuthContext.jsx.  The outcome of the awaited
authAPI.getProfile() call is passed in as profileResult: some data when
the call resolved, none when it threw. -/
def initAuth {α : Type} (st : Storage) (profileResult : Option α) :
    InitAuthResult α :=
  if isAuthenticated st then
    match profileResult with
    | some u => ⟨some u, st, true⟩
    | none => ⟨none, clearTokens, true⟩
  else ⟨none, st, false⟩

/-- Counterexample to claim C8 as stated: the claim says the session is
Unauthenticated at start unless a stored token PAIR exists, but initAuth
guards only on the access token.  With storage holding an access token
and no refresh token, a successful profile resolution still ends
Authenticated, so Authenticated does not imply that a refresh token was
stored. -/
theorem C8_counterexample :
    ¬ (∀ (st : Storage) (p : Option String),
      (initAuth st p).user.isSome = true → st.refresh.isSome = true) := by
  intro h
  have := h ⟨some "tok", none⟩ (some "alice") (by rfl)
  simp at this

/-- Claim C8 as amended: at application start the session is
Unauthenticated unless a truthy (non-empty) stored access token exists,
whether or not a refresh token accompanies it; when one exists, a profile
resolution is attempted and the session becomes Authenticated exactly
when it succeeds; when it fails, both stored token slots are discarded
and the session ends Unauthenticated; without a truthy access token
nothing is attempted and storage is untouched. -/
theorem C8_init_session (α : Type) (st : Storage) (p : Option α) :
    (initAuth st p).attempted = isAuthenticated st ∧
    (initAuth st p).user = (if isAuthenticated st then p else none) ∧
    (isAuthenticated st = true → p = none →
      (initAuth st p).storage = clearTokens ∧ (initAuth st p).user = none) ∧
    (isAuthenticated st = false → initAuth st p = ⟨none, st, false⟩) := by
  unfold initAuth
  by_cases h : isAuthenticated st
  · cases p with
    | some u => simp [h]
    | none => simp [h]
  · simp [h]

/-- Concrete run for claim C8 as amended: stored access token with no
refresh token, successful resolution. -/
theorem C8_witness :
    (initAuth ⟨some "tok", none⟩ (some "alice")).attempted =
      isAuthenticated ⟨some "tok", none⟩ ∧
    (initAuth ⟨some "tok", none⟩ (some "alice")).user =
      (if isAuthenticated ⟨some "tok", none⟩ then some "alice" else none) ∧
    (isAuthenticated ⟨some "tok", none⟩ = true → (some "alice" : Option String) = none →
      (initAuth ⟨some "tok", none⟩ (some "alice")).storage = clearTokens ∧
      (initAuth ⟨some "tok", none⟩ (some "alice")).user = none) ∧
    (isAuthenticated ⟨some "tok", none⟩ = false →
      initAuth ⟨some "tok", none⟩ (some "alice") = ⟨none, ⟨some "tok", none⟩, false⟩) :=
  C8_init_session String ⟨some "tok", none⟩ (some "alice")

/-! ## The events-page client-side filter (pages/EventsPage.jsx
lines 69-91) -/

/-- An event as the events page sees it, with the fields the filter and
the search read. -/
structure UiEvent where
  title : String
  location : String
  description : Option String
  date_time : Int
deriving DecidableEq

/-- The three values of the filter state of EventsPage.jsx line 22. -/
inductive EventFilter where
  | all
  | upcoming
  | past
deriving DecidableEq

/-- JavaScript String.prototype.includes: substring containment.  An
empty needle always matches; otherwise splitting on the needle yields
more than one piece exactly when the needle occurs. -/
def includesStr (hay needle : String) : Bool :=
  if needle = "" then true else (hay.splitOn needle).length != 1

/-- The filter part of the predicate of filteredEvents (EventsPage.jsx
lines 76-81): matchesFilter is true unless the filter is upcoming — then
date-fns isAfter(eventDate, now), a strict comparison — or past — then
isBefore(eventDate, now), also strict. -/
def matchesFilter (f : EventFilter) (now : Int) (e : UiEvent) : Bool :=
  match f with
  | .all => true
  | .upcoming => decide (now < e.date_time)
  | .past => decide (e.date_time < now)

/-- The search part of the predicate of filteredEvents (EventsPage.jsx
lines 83-87): an empty term matches, otherwise the lower-cased term must
occur in the lower-cased title or location, or in the lower-cased
description when one is present. -/
def matchesSearch (term : String) (e : UiEvent) : Bool :=
  term = "" ||
  includesStr e.title.toLower term.toLower ||
  includesStr e.location.toLower term.toLower ||
  (match e.description with
   | some d => includesStr d.toLower term.toLower
   | none => false)

/-- filteredEvents of EventsPage.jsx lines 69-91: the fetched list
filtered by the conjunction of the filter match and the search match,
evaluated against one fixed now. -/
def filteredEvents (events : List UiEvent) (f : EventFilter) (term : String)
    (now : Int) : List UiEvent :=
  events.filter (fun e => matchesFilter f now e && matchesSearch term e)

/-- Claim C10: an event whose date_time equals the current time is
matched by neither the upcoming filter nor the past filter (both are
strict comparisons) while the all filter always matches it; and with
filter all and an empty search term the filtered list is the fetched
list unchanged. -/
theorem C10_boundary_event_and_identity_filter :
    (∀ (e : UiEvent),
      matchesFilter EventFilter.upcoming e.date_time e = false ∧
      matchesFilter EventFilter.past e.date_time e = false ∧
      matchesFilter EventFilter.all e.date_time e = true) ∧
    (∀ (events : List UiEvent) (now : Int),
      filteredEvents events EventFilter.all "" now = events) := by
  constructor
  · intro e
    refine ⟨?_, ?_, rfl⟩ <;> simp [matchesFilter]
  · intro events now
    unfold filteredEvents
    have h : ∀ e : UiEvent,
        (matchesFilter EventFilter.all now e && matchesSearch "" e) = true := by
      intro e
      simp [matchesFilter, matchesSearch]
    induction events with
    | nil => rfl
    | cons e es ih => simp [List.filter_cons, h, ih]

/-! ## The backend access-scoped query layer and share links

The Django backend (backend/events/views.py, models.py, serializers.py)
is not part of the source tree; only its frontend callers and two
security-fix notes (src/unnamed/part_000 and part_001, which quote the
allowed_filters allow-list and the 36-character share-identifier format
check) are.  The definitions below are therefore modelled from the
specification, sections 4.4, 4.5 and 7. -/

/-- A registered user: identity with unique email, password hash out of
scope here, and a display name (spec section 3). -/
structure User where
  id : Nat
  email : String
  name : String
deriving DecidableEq

/-- An event, owned by exactly one user; the share identifier is optional
until generated (spec section 3). -/
structure Event where
  id : Nat
  owner : Nat
  title : String
  date_time : Int
  location : String
  description : Option String
  shareId : Option String
deriving DecidableEq

/-- Backend state: the credential store and the event store. -/
structure Store where
  users : List User
  events : List Event
deriving DecidableEq

/-- The error taxonomy of spec section 7, together with a forbidden
response class (spec section 6 mentions 403-class responses) so that
not-found versus forbidden is a meaningful distinction in the model. -/
inductive ApiError where
  | validation
  | unauthenticated
  | forbidden
  | notFound
  | rateLimited
  | internal
deriving DecidableEq

/-- Modelled from the spec: operation get(identity, eventId) of the
Access-Scoped Query Layer (spec section 4.4) — returns the Event if owned
by the identity; fails with NotFound, never Forbidden, both when the
event exists but is owned by someone else and when it does not exist. -/
def getEvent (db : Store) (ident : Nat) (eid : Nat) : Except ApiError Event :=
  match db.events.find? (fun e => e.id == eid) with
  | none => Except.error ApiError.notFound
  | some e =>
    if e.owner == ident then Except.ok e else Except.error ApiError.notFound

/-- Modelled from the spec: the allow-list of filterable fields for
client-supplied query parameters (spec section 4.4 filtering discipline;
the key names are the ones quoted from backend/events/views.py by the
security note src/unnamed/part_001). -/
def allowedFilters : List String :=
  ["user", "date_time__gte", "date_time__lte", "title__icontains"]

/-- Case-insensitive substring match, the icontains semantics. -/
def icontains (hay needle : String) : Bool :=
  includesStr hay.toLower needle.toLower

/-- Modelled from the spec: the meaning of one allow-listed filter key
applied to one event; an unparsable value matches nothing. -/
def eventMatchesParam (e : Event) (kv : String × String) : Bool :=
  if kv.1 = "user" then
    match kv.2.toNat? with
    | some n => e.owner == n
    | none => false
  else if kv.1 = "date_time__gte" then
    match kv.2.toInt? with
    | some n => decide (n ≤ e.date_time)
    | none => false
  else if kv.1 = "date_time__lte" then
    match kv.2.toInt? with
    | some n => decide (e.date_time ≤ n)
    | none => false
  else if kv.1 = "title__icontains" then
    icontains e.title kv.2
  else
    true

/-- Modelled from the spec: client-supplied filter keys outside the
allow-list are dropped before being applied (spec section 4.4, and the
safe_filters dictionary quoted in src/unnamed/part_001). -/
def safeParams (params : List (String × String)) : List (String × String) :=
  params.filter (fun kv => allowedFilters.contains kv.1)

/-- Modelled from the spec: operation list(identity) of the Access-Scoped
Query Layer (spec section 4.4) — every event read is first restricted to
the requesting identity, then the allow-listed client filters apply. -/
def listEvents (db : Store) (ident : Nat) (params : List (String × String)) :
    List Event :=
  (db.events.filter (fun e => e.owner == ident)).filter
    (fun e => (safeParams params).all (fun kv => eventMatchesParam e kv))

/-- Claim C1: with no client parameters, list(identity) returns exactly
the events owned by the identity; and with arbitrary client parameters,
no event owned by a different identity ever appears in the result. -/
theorem C1_list_owner_scoped :
    (∀ (db : Store) (ident : Nat) (e : Event),
      e ∈ listEvents db ident [] ↔ e ∈ db.events ∧ e.owner = ident) ∧
    (∀ (db : Store) (identA identB : Nat) (params : List (String × String))
      (e : Event), identB ≠ identA → e.owner = identB →
        e ∉ listEvents db identA params) := by
  constructor
  · intro db ident e
    simp [listEvents, safeParams, List.mem_filter]
  · intro db identA identB params e hne hown hmem
    simp only [listEvents, List.mem_filter] at hmem
    have h1 : e.owner = identA := by simpa using hmem.1.2
    rw [hown] at h1
    exact hne h1

/-- Concrete run for claim C1: user 2 owns an event; it never shows up in
the listing of user 1, not even when the client passes a user=2 filter
parameter. -/
theorem C1_witness :
    (⟨20, 2, "Standup", 1000, "Room B", none, none⟩ : Event) ∉
      listEvents ⟨[⟨1, "a@x", "Alice"⟩, ⟨2, "b@x", "Bob"⟩],
        [⟨10, 1, "Review", 500, "Room A", none, none⟩,
         ⟨20, 2, "Standup", 1000, "Room B", none, none⟩]⟩ 1 [("user", "2")] :=
  C1_list_owner_scoped.2 _ 1 2 _ _ (by decide) rfl

/-- Claim C4: get(identity, eventId) succeeds exactly on the events the
identity owns — when it succeeds the returned event is a stored event
with that id owned by the identity, and (for a store with unique event
ids) an owned stored event guarantees success; in every other case, a
stored event with a different owner just like a missing id, the result is
the one NotFound error, and no call ever yields the forbidden error, so
the two failure cases are indistinguishable. -/
theorem C4_get_owner_or_notFound :
    (∀ (db : Store) (ident eid : Nat) (e : Event),
      getEvent db ident eid = Except.ok e →
        e ∈ db.events ∧ e.id = eid ∧ e.owner = ident) ∧
    (∀ (db : Store) (ident eid : Nat),
      (db.events.map Event.id).Nodup →
      (∃ e ∈ db.events, e.id = eid ∧ e.owner = ident) →
        ∃ e, getEvent db ident eid = Except.ok e) ∧
    (∀ (db : Store) (ident eid : Nat),
      (¬ ∃ e ∈ db.events, e.id = eid ∧ e.owner = ident) →
        getEvent db ident eid = Except.error ApiError.notFound) ∧
    (∀ (db : Store) (ident eid : Nat),
      getEvent db ident eid ≠ Except.error ApiError.forbidden) := by
  refine ⟨?_, ?_, ?_, ?_⟩
  · intro db ident eid e h
    unfold getEvent at h
    cases hf : db.events.find? (fun e => e.id == eid) with
    | none => rw [hf] at h; cases h
    | some e0 =>
      rw [hf] at h
      dsimp only at h
      by_cases hown : (e0.owner == ident) = true
      · rw [if_pos hown] at h
        cases h
        have hmem := List.mem_of_find?_eq_some hf
        have hid := List.find?_some hf
        exact ⟨hmem, by simpa using hid, by simpa using hown⟩
      · rw [if_neg hown] at h
        cases h
  · intro db ident eid hnodup ⟨e, hmem, hid, hown⟩
    have hex : ∃ x, x ∈ db.events ∧ (fun e : Event => e.id == eid) x = true := by
      exact ⟨e, hmem, by simpa using hid⟩
    obtain ⟨e0, hf⟩ := Option.isSome_iff_exists.mp (List.find?_isSome.mpr hex)
    have he0mem := List.mem_of_find?_eq_some hf
    have he0id : e0.id = eid := by simpa using List.find?_some hf
    have : e0 = e :=
      List.inj_on_of_nodup_map hnodup he0mem hmem (by rw [he0id, hid])
    subst this
    refine ⟨e0, ?_⟩
    unfold getEvent
    rw [hf]
    dsimp only
    rw [if_pos (by simpa using hown)]
  · intro db ident eid hno
    unfold getEvent
    cases hf : db.events.find? (fun e => e.id == eid) with
    | none => rfl
    | some e0 =>
      have he0mem := List.mem_of_find?_eq_some hf
      have he0id : e0.id = eid := by simpa using List.find?_some hf
      have hne : ¬ (e0.owner == ident) = true := by
        intro h
        exact hno ⟨e0, he0mem, he0id, by simpa using h⟩
      dsimp only
      rw [if_neg hne]
  · intro db ident eid h
    unfold getEvent at h
    cases hf : db.events.find? (fun e => e.id == eid) with
    | none => rw [hf] at h; cases h
    | some e0 =>
      rw [hf] at h
      dsimp only at h
      by_cases hown : (e0.owner == ident) = true
      · rw [if_pos hown] at h; cases h
      · rw [if_neg hown] at h; cases h

/-- Concrete run for claim C4: for identity 1, an event owned by
identity 2 resolves to the same NotFound as an id that does not exist. -/
theorem C4_witness :
    getEvent ⟨[⟨1, "a@x", "Alice"⟩, ⟨2, "b@x", "Bob"⟩],
      [⟨20, 2, "Standup", 1000, "Room B", none, none⟩]⟩ 1 20 =
      Except.error ApiError.notFound ∧
    getEvent ⟨[⟨1, "a@x", "Alice"⟩, ⟨2, "b@x", "Bob"⟩],
      [⟨20, 2, "Standup", 1000, "Room B", none, none⟩]⟩ 1 999 =
      Except.error ApiError.notFound :=
  ⟨C4_get_owner_or_notFound.2.2.1 _ 1 20 (by decide),
   C4_get_owner_or_notFound.2.2.1 _ 1 999 (by decide)⟩

/-! ## Share links (spec section 4.5, modelled from the spec) -/

/-- Modelled from the spec: the fixed-format check on a share identifier
before any storage lookup — 36 characters from a restricted character
set (the 36-character identifier format quoted by src/unnamed/part_000). -/
def isValidShareId (s : String) : Bool :=
  s.data.length == 36 && s.data.all (fun c => c.isAlphanum || c == '-')

/-- The public-safe projection of an event: title, time, location,
description and the display name of the owner (spec section 4.5). -/
structure PublicEvent where
  title : String
  date_time : Int
  location : String
  description : Option String
  owner_name : String
deriving DecidableEq

/-- Display name of a user id in the credential store. -/
def ownerName (users : List User) (uid : Nat) : String :=
  match users.find? (fun u => u.id == uid) with
  | some u => u.name
  | none => ""

/-- The projection of one event, spec section 4.5. -/
def publicProjection (users : List User) (e : Event) : PublicEvent :=
  ⟨e.title, e.date_time, e.location, e.description, ownerName users e.owner⟩

/-- Outcome of the public resolve operation: the response, and how many
times the storage layer was consulted while producing it. -/
structure ResolveOutcome where
  result : Except ApiError PublicEvent
  storeLookups : Nat

/-- Modelled from the spec: operation resolve(shareId) of the Share-Link
Generator (spec section 4.5) — the identifier format is validated
strictly before any storage lookup; a malformed identifier yields
NotFound with zero storage accesses; a well-formed one is looked up with
no ownership check, yielding the public-safe projection or NotFound.
The operation takes no requester identity and returns no store: it can
neither write nor reach any event other than the one bearing the
identifier. -/
def resolveShare (db : Store) (sid : String) : ResolveOutcome :=
  if isValidShareId sid then
    match db.events.find? (fun e => e.shareId == some sid) with
    | some e => ⟨Except.ok (publicProjection db.users e), 1⟩
    | none => ⟨Except.error ApiError.notFound, 1⟩
  else ⟨Except.error ApiError.notFound, 0⟩

/-- Claim C6: every malformed share identifier resolves to NotFound with
zero storage-layer lookups, for every state of the store. -/
theorem C6_malformed_share_no_lookup (db : Store) (sid : String)
    (h : isValidShareId sid = false) :
    resolveShare db sid = ⟨Except.error ApiError.notFound, 0⟩ := by
  unfold resolveShare
  rw [h]
  rfl

/-- Concrete runs for claim C6 on a non-empty store holding a shared
event: a path-traversal-like identifier of the wrong length, a
path-traversal-like identifier of the right length (36 characters), and
an identifier with a disallowed character all yield NotFound without any
storage lookup. -/
theorem C6_witness :
    resolveShare ⟨[⟨1, "a@x", "Alice"⟩],
        [⟨10, 1, "Review", 500, "Room A", none,
          some "123e4567-e89b-12d3-a456-426614174000"⟩]⟩ "../etc/passwd" =
      ⟨Except.error ApiError.notFound, 0⟩ ∧
    resolveShare ⟨[⟨1, "a@x", "Alice"⟩],
        [⟨10, 1, "Review", 500, "Room A", none,
          some "123e4567-e89b-12d3-a456-426614174000"⟩]⟩
        "../../../../../../../../../../../../" =
      ⟨Except.error ApiError.notFound, 0⟩ ∧
    resolveShare ⟨[⟨1, "a@x", "Alice"⟩],
        [⟨10, 1, "Review", 500, "Room A", none,
          some "123e4567-e89b-12d3-a456-426614174000"⟩]⟩
        "123e4567_e89b_12d3_a456_426614174000" =
      ⟨Except.error ApiError.notFound, 0⟩ :=
  ⟨C6_malformed_share_no_lookup _ _ (by decide),
   C6_malformed_share_no_lookup _ _ (by decide),
   C6_malformed_share_no_lookup _ _ (by decide)⟩

/-- Modelled from the spec: attach a generated identifier to the event
carrying the given id. -/
def setShareId (db : Store) (eid : Nat) (sid : String) : Store :=
  ⟨db.users, db.events.map
    (fun e => if e.id == eid then { e with shareId := some sid } else e)⟩

/-- Modelled from the spec: operation generate(identity, eventId) of the
Share-Link Generator (spec section 4.5) — ownership is required through
the get of section 4.4; an event already carrying an identifier keeps it
(the idempotent reading of the open question in section 9); otherwise the
freshly generated random identifier, passed in as fresh, is attached and
returned. -/
def generateShareLink (db : Store) (ident eid : Nat) (fresh : String) :
    Except ApiError (Store × String) :=
  match getEvent db ident eid with
  | Except.error err => Except.error err
  | Except.ok e =>
    match e.shareId with
    | some sid => Except.ok (db, sid)
    | none => Except.ok (setShareId db eid fresh, fresh)

/-- The client-writable fields of an event. -/
structure EventData where
  title : String
  date_time : Int
  location : String
  description : Option String

/-- Overwrite the client-writable fields; id, owner and share identifier
are untouched. -/
def applyEventData (d : EventData) (e : Event) : Event :=
  { e with
    title := d.title
    date_time := d.date_time
    location := d.location
    description := d.description }

/-- Modelled from the spec: operation update(identity, eventId, data) of
the Access-Scoped Query Layer (spec section 4.4) — requires ownership
through get, failing with NotFound otherwise. -/
def updateEvent (db : Store) (ident eid : Nat) (d : EventData) :
    Except ApiError Store :=
  match getEvent db ident eid with
  | Except.error err => Except.error err
  | Except.ok _ =>
    Except.ok ⟨db.users, db.events.map
      (fun e => if e.id == eid then applyEventData d e else e)⟩

/-- find? returns the unique element satisfying the predicate. -/
theorem find?_eq_some_of_unique {α : Type} {p : α → Bool} {l : List α} {a : α}
    (ha : a ∈ l) (hpa : p a = true)
    (huniq : ∀ b ∈ l, p b = true → b = a) :
    l.find? p = some a := by
  induction l with
  | nil => cases ha
  | cons x xs ih =>
    by_cases hx : p x = true
    · have hxa : x = a := huniq x (List.mem_cons_self x xs) hx
      subst hxa
      exact List.find?_cons_of_pos xs hpa
    · have hax : a ∈ xs := by
        cases List.mem_cons.mp ha with
        | inl h => exact absurd (h ▸ hpa) hx
        | inr h => exact h
      rw [List.find?_cons_of_neg xs hx]
      exact ih hax (fun b hb hpb => huniq b (List.mem_cons_of_mem x hb) hpb)

/-- find? by share identifier over a transformed event list: when the
transformation gives the unique event with the searched id the searched
identifier, keeps every other event unchanged, and no other event carries
the identifier, the transformed unique event is found. -/
theorem find?_shareId_map (l : List Event) (G : Event → Event) (e : Event)
    (eid : Nat) (sid : String)
    (he : e ∈ l)
    (huniq : ∀ f ∈ l, f.id = eid → f = e)
    (hGe : (G e).shareId = some sid)
    (hGother : ∀ f : Event, ¬ f.id = eid → G f = f)
    (hfu : ∀ f ∈ l, ¬ f.id = eid → f.shareId ≠ some sid) :
    (l.map G).find? (fun f => f.shareId == some sid) = some (G e) := by
  apply find?_eq_some_of_unique (List.mem_map_of_mem G he) (by simp [hGe])
  intro b hb hpb
  obtain ⟨f, hf, rfl⟩ := List.mem_map.mp hb
  by_cases hfid : f.id = eid
  · rw [huniq f hf hfid]
  · rw [hGother f hfid] at hpb ⊢
    exact absurd (by simpa using hpb) (hfu f hf hfid)

/-- find? by event id over a transformed event list, for id-preserving
transformations: the transform of the unique event with that id is
found. -/
theorem find?_id_map (l : List Event) (G : Event → Event) (e : Event)
    (eid : Nat)
    (he : e ∈ l) (hid : e.id = eid)
    (huniq : ∀ f ∈ l, f.id = eid → f = e)
    (hGid : ∀ f : Event, (G f).id = f.id) :
    (l.map G).find? (fun f => f.id == eid) = some (G e) := by
  apply find?_eq_some_of_unique (List.mem_map_of_mem G he) (by simp [hGid, hid])
  intro b hb hpb
  obtain ⟨f, hf, rfl⟩ := List.mem_map.mp hb
  have hfid : f.id = eid := by rw [← hGid f]; simpa using hpb
  rw [huniq f hf hfid]

/-- get succeeds on the unique stored event with the requested id when
the requester owns it. -/
theorem getEvent_eq_ok (db : Store) (A eid : Nat) (e : Event)
    (he : e ∈ db.events) (hid : e.id = eid) (hown : e.owner = A)
    (huniq : ∀ f ∈ db.events, f.id = eid → f = e) :
    getEvent db A eid = Except.ok e := by
  unfold getEvent
  rw [find?_eq_some_of_unique he (by simpa using hid)
    (fun b hb hpb => huniq b hb (by simpa using hpb))]
  dsimp only
  rw [if_pos (by simpa using hown)]

/-- resolve on a well-formed identifier returns the projection of the
event that find? locates. -/
theorem resolveShare_found (db : Store) (sid : String) (e : Event)
    (hv : isValidShareId sid = true)
    (hf : db.events.find? (fun f => f.shareId == some sid) = some e) :
    (resolveShare db sid).result = Except.ok (publicProjection db.users e) := by
  unfold resolveShare
  rw [hv, if_pos rfl, hf]

/-- Claim C5: for an identity owning the unique stored event with a given
id, generating a share link succeeds, and resolving the produced
identifier — with no requester identity — returns exactly the public-safe
projection of the event (title, time, location, description, owner
display name); after the owner mutates the event through update, the same
identifier resolves to the updated fields; and the identifier is carried
by no stored event other than this one, so it reaches no other event.
Resolve itself returns no store, so the identifier gives no write access
by construction.  The hypotheses are the store invariants of spec
section 3: event ids identify a unique event, share identifiers are
well-formed and unique, and the fresh identifier is well-formed and
unused. -/
theorem C5_share_roundtrip (db : Store) (A eid : Nat) (e : Event)
    (fresh : String)
    (he : e ∈ db.events) (hid : e.id = eid) (hown : e.owner = A)
    (huniq : ∀ f ∈ db.events, f.id = eid → f = e)
    (hfv : isValidShareId fresh = true)
    (hfu : ∀ f ∈ db.events, f.shareId ≠ some fresh)
    (hsv : ∀ s, e.shareId = some s → isValidShareId s = true)
    (hsu : ∀ s, e.shareId = some s → ∀ f ∈ db.events, f.shareId = some s → f = e) :
    ∃ db2 sid, generateShareLink db A eid fresh = Except.ok (db2, sid) ∧
      db2.users = db.users ∧
      (resolveShare db2 sid).result = Except.ok (publicProjection db.users e) ∧
      (∀ d : EventData, ∃ db3, updateEvent db2 A eid d = Except.ok db3 ∧
        (resolveShare db3 sid).result = Except.ok
          ⟨d.title, d.date_time, d.location, d.description,
            ownerName db.users e.owner⟩ ∧
        (∀ f ∈ db3.events, f.shareId = some sid → f.id = eid)) := by
  have hget : getEvent db A eid = Except.ok e := getEvent_eq_ok db A eid e he hid hown huniq
  cases hs : e.shareId with
  | some s =>
    refine ⟨db, s, ?_, rfl, ?_, ?_⟩
    · unfold generateShareLink
      rw [hget]
      dsimp only
      rw [hs]
    · have hr : db.events.find? (fun f => f.shareId == some s) = some e :=
        find?_eq_some_of_unique he (by simp [hs])
          (fun b hb hpb => hsu s hs b hb (by simpa using hpb))
      exact resolveShare_found db s e (hsv s hs) hr
    · intro d
      refine ⟨⟨db.users, db.events.map
        (fun f => if f.id == eid then applyEventData d f else f)⟩, ?_, ?_, ?_⟩
      · unfold updateEvent
        rw [hget]
      · have hr : (db.events.map
            (fun f => if f.id == eid then applyEventData d f else f)).find?
              (fun f => f.shareId == some s) = some (applyEventData d e) := by
          have := find?_shareId_map db.events
            (fun f => if f.id == eid then applyEventData d f else f) e eid s he huniq
            (by simp [hid, applyEventData, hs])
            (fun f hf => by simp [hf])
            (fun f hf hne hcon =>
              hne (by rw [hsu s hs f hf hcon]; exact hid))
          rw [this]
          simp [hid]
        have := resolveShare_found
          ⟨db.users, db.events.map
            (fun f => if f.id == eid then applyEventData d f else f)⟩ s
          (applyEventData d e) (hsv s hs) hr
        rw [this]
        simp [publicProjection, applyEventData]
      · intro f hf hfsid
        obtain ⟨f0, hf0, rfl⟩ := List.mem_map.mp hf
        by_cases h0 : f0.id = eid
        · simp [applyEventData, h0]
        · rw [show (if (f0.id == eid) = true then applyEventData d f0 else f0) = f0
            from by simp [h0]] at hfsid ⊢
          rw [hsu s hs f0 hf0 hfsid]
          exact hid
  | none =>
    refine ⟨setShareId db eid fresh, fresh, ?_, rfl, ?_, ?_⟩
    · unfold generateShareLink
      rw [hget]
      dsimp only
      rw [hs]
    · have hr : (setShareId db eid fresh).events.find?
          (fun f => f.shareId == some fresh) =
          some { e with shareId := some fresh } := by
        have := find?_shareId_map db.events
          (fun f => if f.id == eid then { f with shareId := some fresh } else f)
          e eid fresh he huniq
          (by simp [hid])
          (fun f hf => by simp [hf])
          (fun f hf _ => hfu f hf)
        rw [show (setShareId db eid fresh).events = db.events.map
          (fun f => if f.id == eid then { f with shareId := some fresh } else f)
          from rfl, this]
        simp [hid]
      have hres := resolveShare_found (setShareId db eid fresh) fresh
        { e with shareId := some fresh } hfv hr
      rw [hres]
      rfl
    · intro d
      have hget2 : getEvent (setShareId db eid fresh) A eid =
          Except.ok { e with shareId := some fresh } := by
        unfold getEvent
        rw [show (setShareId db eid fresh).events = db.events.map
          (fun f => if f.id == eid then { f with shareId := some fresh } else f)
          from rfl]
        rw [find?_id_map db.events
          (fun f => if f.id == eid then { f with shareId := some fresh } else f)
          e eid he hid huniq
          (fun f => by by_cases h0 : (f.id == eid) = true <;> simp [h0])]
        dsimp only
        rw [show (if (e.id == eid) = true
            then { e with shareId := some fresh } else e) =
          { e with shareId := some fresh } from by simp [hid]]
        rw [if_pos (by simpa using hown)]
      refine ⟨⟨(setShareId db eid fresh).users, (setShareId db eid fresh).events.map
        (fun f => if f.id == eid then applyEventData d f else f)⟩, ?_, ?_, ?_⟩
      · unfold updateEvent
        rw [hget2]
      · have hmm : (setShareId db eid fresh).events.map
            (fun f => if f.id == eid then applyEventData d f else f) =
            db.events.map ((fun f => if f.id == eid then applyEventData d f else f)
              ∘ (fun f => if f.id == eid then { f with shareId := some fresh } else f)) := by
          rw [show (setShareId db eid fresh).events = db.events.map
            (fun f => if f.id == eid then { f with shareId := some fresh } else f)
            from rfl, List.map_map]
        have hr : (db.events.map ((fun f => if f.id == eid then applyEventData d f else f)
            ∘ (fun f => if f.id == eid then { f with shareId := some fresh } else f))).find?
            (fun f => f.shareId == some fresh) =
            some (applyEventData d { e with shareId := some fresh }) := by
          have := find?_shareId_map db.events
            ((fun f => if f.id == eid then applyEventData d f else f)
              ∘ (fun f => if f.id == eid then { f with shareId := some fresh } else f))
            e eid fresh he huniq
            (by simp [Function.comp, hid, applyEventData])
            (fun f hf => by simp [Function.comp, hf])
            (fun f hf _ => hfu f hf)
          rw [this]
          simp [Function.comp, hid]
        have hres := resolveShare_found
          ⟨(setShareId db eid fresh).users, (setShareId db eid fresh).events.map
            (fun f => if f.id == eid then applyEventData d f else f)⟩ fresh
          (applyEventData d { e with shareId := some fresh }) hfv (by rw [hmm]; exact hr)
        rw [hres]
        simp [publicProjection, applyEventData, setShareId]
      · intro f hf hfsid
        rw [show ((⟨(setShareId db eid fresh).users, (setShareId db eid fresh).events.map
          (fun f => if f.id == eid then applyEventData d f else f)⟩ : Store)).events =
          (setShareId db eid fresh).events.map
            (fun f => if f.id == eid then applyEventData d f else f) from rfl] at hf
        obtain ⟨f1, hf1, rfl⟩ := List.mem_map.mp hf
        obtain ⟨f0, hf0, rfl⟩ := List.mem_map.mp hf1
        by_cases h0 : f0.id = eid
        · simp [applyEventData, h0]
        · rw [show (if (f0.id == eid) = true
              then { f0 with shareId := some fresh } else f0) = f0
            from by simp [h0]] at hfsid ⊢
          rw [show (if (f0.id == eid) = true then applyEventData d f0 else f0) = f0
            from by simp [h0]] at hfsid ⊢
          exact absurd hfsid (hfu f0 hf0)

/-- Fixture for the C5 run: Alice and her single unshared event. -/
def aliceStore : Store :=
  ⟨[⟨1, "alice@example.com", "Alice"⟩],
   [⟨10, 1, "Standup", 1000, "Room A", none, none⟩]⟩

/-- Fixture for the C5 run: the stored event itself. -/
def aliceEvent : Event := ⟨10, 1, "Standup", 1000, "Room A", none, none⟩

/-- Fixture for the C5 run: a well-formed generated identifier. -/
def uuidFresh : String := "123e4567-e89b-12d3-a456-426614174000"

/-- Concrete run for claim C5: generating a link for the Standup event
and resolving it yields its projection; any update is reflected on
re-resolution; and the identifier is attached to no other event. -/
theorem C5_witness :
    ∃ db2 sid, generateShareLink aliceStore 1 10 uuidFresh =
        Except.ok (db2, sid) ∧
      db2.users = aliceStore.users ∧
      (resolveShare db2 sid).result =
        Except.ok (publicProjection aliceStore.users aliceEvent) ∧
      (∀ d : EventData, ∃ db3, updateEvent db2 1 10 d = Except.ok db3 ∧
        (resolveShare db3 sid).result = Except.ok
          ⟨d.title, d.date_time, d.location, d.description,
            ownerName aliceStore.users aliceEvent.owner⟩ ∧
        (∀ f ∈ db3.events, f.shareId = some sid → f.id = 10)) :=
  C5_share_roundtrip aliceStore 1 10 aliceEvent uuidFresh
    (by decide) rfl rfl (by decide) (by decide) (by decide)
    (fun s h => Option.noConfusion h) (fun s h => Option.noConfusion h)

end EventHive
